import Mathlib

/-!
Verification of the animated GPU resource pipeline of the learn-wgpu
tutorial repository.  The development shallowly embeds the CPU-side logic
of the Hilbert-curve morph example (hilbert_curve_app.rs), the particle-ink
example (particle_ink.rs) and the deferred-resize logic of the
tutorial2-surface example (main.rs).  Floating-point values are modelled by
exact rationals; machine integers by Nat (all the embedded arithmetic stays
far below every relevant word size, and the single modulo the code performs
is written explicitly).  GPU calls are modelled by explicit event values
(buffer writes, compute dispatches, draw calls) returned next to the
updated state.
-/

/-- Interpolation record for one frame of the Hilbert-curve morph animation
(the HilbertUniform struct of the hilbert-curve crate).  The two f32 fields
are modelled as exact rationals. -/
structure HilbertUniform where
  near_target_ratio : Rat
  depth_bias : Rat
deriving DecidableEq

/-- Record written for animation step i of draw_count by the init loop of
HilbertCurveApp::new (hilbert_curve_app.rs lines 87-117): the interpolation
ratio is step / (draw_count - 1) and the depth bias starts at 1.0 and is
decreased by 0.01 after every step. -/
def hilbert_uniform_at (draw_count step : Nat) : HilbertUniform :=
  { near_target_ratio := (step : Rat) / ((draw_count : Rat) - 1)
    depth_bias := 1 - (step : Rat) / 100 }

/-- The Frame Uniform Table of the Hilbert example: one record per frame. -/
def hilbert_frame_uniforms (draw_count : Nat) : List HilbertUniform :=
  (List.range draw_count).map fun step => hilbert_uniform_at draw_count step

/-- The (byte offset, record) pairs written into the dynamic-offset uniform
buffer by the init loop of HilbertCurveApp::new: record step is written at
byte offset offset_buffer_size * step with offset_buffer_size = 256. -/
def hilbert_uniform_writes (draw_count : Nat) : List (Nat × HilbertUniform) :=
  (List.range draw_count).map fun step => (256 * step, hilbert_uniform_at draw_count step)

/-- Per-frame record of the particle example (struct ParticleFrameUniform),
holding the alpha interpolation value for one frame. -/
structure ParticleFrameUniform where
  frame_alpha : Rat
deriving DecidableEq

/-- Record i of the particle Frame Uniform Table (init_frame_uniforms in
particle_ink.rs lines 326-335): step = 1.0 / (frame_cunt / 4.0) and record i
holds frame_alpha = step * i. -/
def particle_uniform_at (frame_cunt i : Nat) : ParticleFrameUniform :=
  { frame_alpha := 1 / ((frame_cunt : Rat) / 4) * (i : Rat) }

/-- The particle Frame Uniform Table built at initialization by
init_frame_uniforms (particle_ink.rs lines 326-335).  The Rust function is
total: for frame_cunt = 0 the loop body never runs and the function returns
an empty vector (the f32 division 1.0 / 0.0 is defined and unused), so the
embedding is a total function as well. -/
def init_frame_uniforms (frame_cunt : Nat) : List ParticleFrameUniform :=
  (List.range frame_cunt).map fun i => particle_uniform_at frame_cunt i

/-- The (byte offset, record) pairs written into the dynamic-offset uniform
buffer in ParticleInk::new (particle_ink.rs lines 131-139): record step is
written at byte offset 256 * step. -/
def particle_uniform_writes (frame_cunt : Nat) : List (Nat × ParticleFrameUniform) :=
  (List.range frame_cunt).map fun step => (256 * step, particle_uniform_at frame_cunt step)

/-- CPU-side animation state of ParticleInk (particle_ink.rs).  Only the
fields the per-frame logic reads or writes are kept; the GPU resources are
represented by the events the methods record. -/
structure ParticleInk where
  particle_count : Nat
  animate_index : Nat
  frame_count : Nat
deriving DecidableEq

/-- A compute dispatch recorded inside the single compute pass opened by
ParticleInk::cal_particles_move. -/
inductive ComputeDispatch
  | reset
  | move
deriving DecidableEq

/-- ParticleInk::cal_particles_move (particle_ink.rs lines 209-216): opens
one compute pass, dispatches the reset node when animate_index == 0, then
always dispatches the move node.  The method does not change the state. -/
def ParticleInk.cal_particles_move (p : ParticleInk) : List ComputeDispatch :=
  (if p.animate_index = 0 then [ComputeDispatch.reset] else []) ++ [ComputeDispatch.move]

/-- The draw call recorded by ParticleInk::enter_frame: draw_indexed over
index_count indices with particle_count instances, with the dynamic-offset
bind group bound at offset 256 * animate_index. -/
structure ParticleDraw where
  dynamic_offset : Nat
  index_count : Nat
  instance_count : Nat
deriving DecidableEq

/-- ParticleInk::enter_frame (particle_ink.rs lines 218-247): records the
draw for the current animate_index, then increments animate_index, wrapping
it to 0 and reporting completion when it reaches frame_count. -/
def ParticleInk.enter_frame (p : ParticleInk) : ParticleInk × ParticleDraw × Bool :=
  let draw : ParticleDraw :=
    { dynamic_offset := 256 * p.animate_index
      index_count := 6
      instance_count := p.particle_count }
  let idx := p.animate_index + 1
  if idx = p.frame_count then ({ p with animate_index := 0 }, draw, true)
  else ({ p with animate_index := idx }, draw, false)

/-- One rendered frame of the particle example: cal_particles_move followed
by enter_frame.  The log keeps the compute dispatches of the pass and the
completion flag returned by enter_frame. -/
def particle_frame (p : ParticleInk) : ParticleInk × (List ComputeDispatch × Bool) :=
  let disp := p.cal_particles_move
  let r := p.enter_frame
  (r.1, (disp, r.2.2))

/-- Runs n particle frames, returning the final state and the per-frame
logs in order. -/
def particle_run : Nat → ParticleInk → ParticleInk × List (List ComputeDispatch × Bool)
  | 0, p => (p, [])
  | n + 1, p =>
    let f := particle_frame p
    let rest := particle_run n f.1
    (rest.1, f.2 :: rest.2)

/-- Modelled from the spec: the HilbertCurve type (hilbert_curve.rs of the
hilbert-curve crate) is not under src/.  Per the spec, a phase is the
dimension of the discrete curve configuration and at a phase transition the
start-phase records are quadrupled to match the end-phase record count, so a
dimension-d curve carries 4 ^ d vertex records (the traversal of the
2 ^ d by 2 ^ d grid).  The coordinates of the records play no role in any
claim; each record is kept as its index along the curve.  Each record is one
3-float position of 12 bytes: the app slices the vertex buffers at byte
offset 12 to shift by one record and allocates (4 * 4 * 3) bytes per group
of 4 records (hilbert_curve_app.rs lines 120 and 277-280). -/
structure HilbertCurve where
  dimention : Nat
  vertices : List Nat
deriving DecidableEq

/-- Modelled from the spec: HilbertCurve::new(d) builds the dimension-d
curve with 4 ^ d vertex records. -/
def HilbertCurve.new (d : Nat) : HilbertCurve :=
  { dimention := d, vertices := List.range (4 ^ d) }

/-- Modelled from the spec: HilbertCurve::four_times_vertices duplicates
every record four times so that the start curve record count matches the
record count of the next dimension (4 ^ (d + 1) = 4 * 4 ^ d). -/
def HilbertCurve.four_times_vertices (c : HilbertCurve) : HilbertCurve :=
  { dimention := c.dimention
    vertices := c.vertices.flatMap fun v => [v, v, v, v] }

/-- Byte size of one vertex record: a 3-float position (the vertex buffers
are sliced at byte offset 12 per record in HilbertCurveApp::render). -/
def vertex_byte_size : Nat := 12

/-- Allocated byte size of each of the two ping-pong vertex buffers
(hilbert_curve_app.rs line 120): (4 * 4 * 3) * len(HilbertCurve::new(5)). -/
def hilbert_vertex_buffer_size : Nat :=
  4 * 4 * 3 * (HilbertCurve.new 5).vertices.length

/-- CPU-side state of HilbertCurveApp (hilbert_curve_app.rs lines 7-19).
The surface configuration is kept as its pixel dimensions, and the contents
of the projection uniform buffer as the viewport the matrix was computed
from; the GPU buffers are represented by the events the methods record. -/
structure HilbertCurveApp where
  size : Nat × Nat
  size_changed : Bool
  config_size : Nat × Nat
  mvp_viewport : Nat × Nat
  curve_vertex_count : Nat
  animate_index : Nat
  draw_count : Nat
  curve_dimention : Nat
  is_animation_up : Bool
deriving DecidableEq

/-- A side effect performed by the deferred resize application: the surface
reconfiguration, and the re-upload of the projection uniform. -/
inductive ResizeEffect
  | reconfigure_surface (w h : Nat)
  | upload_projection_uniform (w h : Nat)
deriving DecidableEq

/-- HilbertCurveApp::resize_surface_if_needed (hilbert_curve_app.rs lines
23-48): when the dirty flag is set, resizes the surface to the recorded
size, recomputes and re-uploads the projection uniform, and clears the
flag; otherwise does nothing. -/
def HilbertCurveApp.resize_surface_if_needed (s : HilbertCurveApp) :
    HilbertCurveApp × List ResizeEffect :=
  if s.size_changed then
    ({ s with config_size := s.size, mvp_viewport := s.size, size_changed := false },
     [ResizeEffect.reconfigure_surface s.size.1 s.size.2,
      ResizeEffect.upload_projection_uniform s.size.1 s.size.2])
  else (s, [])

/-- HilbertCurveApp::set_window_resized (hilbert_curve_app.rs lines
152-158): returns immediately when the new size equals the current surface
configuration dimensions; otherwise records the size and sets the dirty
flag. -/
def HilbertCurveApp.set_window_resized (s : HilbertCurveApp) (new_size : Nat × Nat) :
    HilbertCurveApp :=
  if s.config_size.1 = new_size.1 ∧ s.config_size.2 = new_size.2 then s
  else { s with size := new_size, size_changed := true }

/-- The tutorial2-surface WgpuApp state (main.rs lines 11-20), restricted to
the fields of its resize logic. -/
structure WgpuApp where
  size : Nat × Nat
  size_changed : Bool
  config_size : Nat × Nat
deriving DecidableEq

/-- WgpuApp::set_window_resized (tutorial2-surface main.rs lines 134-140):
returns immediately when the new size equals the last recorded size (not
the surface configuration); otherwise records it and sets the dirty flag. -/
def WgpuApp.set_window_resized (s : WgpuApp) (new_size : Nat × Nat) : WgpuApp :=
  if new_size = s.size then s
  else { s with size := new_size, size_changed := true }

/-- WgpuApp::resize_surface_if_needed (tutorial2-surface main.rs lines
143-150): when dirty, copies the recorded size into the surface
configuration, reconfigures the surface and clears the flag. -/
def WgpuApp.resize_surface_if_needed (s : WgpuApp) : WgpuApp × List ResizeEffect :=
  if s.size_changed then
    ({ s with config_size := s.size, size_changed := false },
     [ResizeEffect.reconfigure_surface s.size.1 s.size.2])
  else (s, [])

/-- The wgpu::SurfaceError variants a surface texture acquisition can
return. -/
inductive SurfaceError
  | timeout
  | outdated
  | lost
  | out_of_memory
  | other
deriving DecidableEq

/-- A write of a full vertex record set into one of the two ping-pong
vertex buffers (queue.write_buffer from offset 0 in
HilbertCurveApp::render). -/
structure VertexBufferWrite where
  buffer : Nat
  offset : Nat
  records : List Nat
deriving DecidableEq

/-- Byte size of a vertex-buffer write: 12 bytes per vertex record. -/
def VertexBufferWrite.byte_size (wr : VertexBufferWrite) : Nat :=
  vertex_byte_size * wr.records.length

/-- The draw call recorded by HilbertCurveApp::render: 6 vertices per
line-segment instance, the instance count, and the dynamic offset the
per-frame uniform bind group is bound at. -/
structure HilbertDraw where
  dynamic_offset : Nat
  vertex_count : Nat
  instance_count : Nat
deriving DecidableEq

/-- The dimension update performed when animate_index wraps to 0
(hilbert_curve_app.rs lines 197-212): ascending increments the dimension
until 6, where it flips the direction and decrements; descending
decrements until 1, where it flips back and increments. -/
def hilbert_step_dimension (d : Nat) (up : Bool) : Nat × Bool :=
  if up then
    if d < 6 then (d + 1, true) else (d - 1, false)
  else
    if d > 1 then (d - 1, false) else (d + 1, true)

/-- First-frame population (hilbert_curve_app.rs lines 169-190): when
curve_vertex_count is still 0, fills buffer 0 with the quadrupled
start curve of the current dimension and buffer 1 with the curve of the
next dimension, and records the new target vertex count. -/
def HilbertCurveApp.first_populate (s : HilbertCurveApp) :
    HilbertCurveApp × List VertexBufferWrite :=
  if s.curve_vertex_count = 0 then
    let start_curve := (HilbertCurve.new s.curve_dimention).four_times_vertices
    let target_curve := HilbertCurve.new (s.curve_dimention + 1)
    ({ s with curve_vertex_count := target_curve.vertices.length },
     [{ buffer := 0, offset := 0, records := start_curve.vertices },
      { buffer := 1, offset := 0, records := target_curve.vertices }])
  else (s, [])

/-- Wraparound population (hilbert_curve_app.rs lines 196-241): when the
advanced animate_index is 0, updates the dimension state, computes the next
target dimension, builds the start curve (quadrupled only when ascending)
and the target curve, records the new target vertex count and overwrites
both ping-pong buffers. -/
def HilbertCurveApp.wrap_populate (s : HilbertCurveApp) :
    HilbertCurveApp × List VertexBufferWrite :=
  if s.animate_index = 0 then
    let du := hilbert_step_dimension s.curve_dimention s.is_animation_up
    let next_dim := if du.2 then du.1 + 1 else du.1 - 1
    let start_curve :=
      if du.2 then (HilbertCurve.new du.1).four_times_vertices else HilbertCurve.new du.1
    let target_curve := HilbertCurve.new next_dim
    ({ s with curve_dimention := du.1, is_animation_up := du.2,
              curve_vertex_count := target_curve.vertices.length },
     [{ buffer := 0, offset := 0, records := start_curve.vertices },
      { buffer := 1, offset := 0, records := target_curve.vertices }])
  else (s, [])

/-- HilbertCurveApp::render (hilbert_curve_app.rs lines 164-291).  In
source order: apply a pending resize, populate the buffers on the first
call, advance animate_index modulo draw_count, repopulate at a wraparound,
then acquire the surface texture (the acquire argument is the outcome of
get_current_texture; on an error the ? operator returns it to the caller at
that point, after all state updates and buffer writes) and finally record
the draw: 6 vertices per instance, curve_vertex_count - 1 instances (a
saturating u32 subtraction, which Nat subtraction matches), dynamic offset
256 * animate_index. -/
def HilbertCurveApp.render (s0 : HilbertCurveApp) (acquire : Option SurfaceError) :
    HilbertCurveApp × List VertexBufferWrite × Except SurfaceError HilbertDraw :=
  let s1 := s0.resize_surface_if_needed.1
  let fp := s1.first_populate
  let s3 := { fp.1 with animate_index := (fp.1.animate_index + 1) % fp.1.draw_count }
  let wp := s3.wrap_populate
  match acquire with
  | some e => (wp.1, fp.2 ++ wp.2, Except.error e)
  | none =>
    (wp.1, fp.2 ++ wp.2,
     Except.ok
       { dynamic_offset := 256 * wp.1.animate_index
         vertex_count := 6
         instance_count := wp.1.curve_vertex_count - 1 })

/-- The state HilbertCurveApp::new leaves behind (hilbert_curve_app.rs
lines 137-149): draw_count = 60 * 3, dimension 1 ascending, all counters at
0, surface dimensions as provided by the window. -/
def hilbert_init (w h : Nat) : HilbertCurveApp :=
  { size := (w, h)
    size_changed := false
    config_size := (w, h)
    mvp_viewport := (w, h)
    curve_vertex_count := 0
    animate_index := 0
    draw_count := 60 * 3
    curve_dimention := 1
    is_animation_up := true }

/-- The app state after n successful render calls from the initial state. -/
def hilbert_trace (w h : Nat) : Nat → HilbertCurveApp
  | 0 => hilbert_init w h
  | n + 1 => ((hilbert_trace w h n).render none).1

/-- The vertex-buffer writes recorded during render number n (the render
that takes the trace from state n to state n + 1). -/
def hilbert_render_writes (w h n : Nat) : List VertexBufferWrite :=
  ((hilbert_trace w h n).render none).2.1

/-- Extracts the draw of a successful render outcome. -/
def except_draw : Except SurfaceError HilbertDraw → HilbertDraw
  | Except.ok d => d
  | Except.error _ => { dynamic_offset := 0, vertex_count := 0, instance_count := 0 }

/-- The draw call recorded during render number n of the trace. -/
def hilbert_frame_draw (w h n : Nat) : HilbertDraw :=
  except_draw ((hilbert_trace w h n).render none).2.2

/-- The record count of the last write into the target ping-pong buffer
(buffer 1) among a list of writes, if any. -/
def target_populate (ws : List VertexBufferWrite) : Option Nat :=
  ((ws.filter fun wr => wr.buffer == 1).getLast?).map fun wr => wr.records.length

/-- The record count of the most recent target-buffer population during
renders 0..n of the trace. -/
def last_target_records (w h : Nat) : Nat → Nat
  | 0 => (target_populate (hilbert_render_writes w h 0)).getD 0
  | n + 1 => (target_populate (hilbert_render_writes w h (n + 1))).getD (last_target_records w h n)

/-- The dimension/direction pair after n wraparound updates, starting from
dimension 1 ascending. -/
def hilbert_dim_iter : Nat → Nat × Bool
  | 0 => (1, true)
  | n + 1 => hilbert_step_dimension (hilbert_dim_iter n).1 (hilbert_dim_iter n).2

/-- The target dimension of the transition populated for a
dimension/direction pair: one up when ascending, one down when
descending (hilbert_curve_app.rs lines 215-219). -/
def hilbert_next_dim (du : Nat × Bool) : Nat :=
  if du.2 then du.1 + 1 else du.1 - 1

/-- Closed form of the trace state after n renders, for n at least 1:
animate_index cycles modulo 180, the dimension state is the wraparound
automaton iterated n / 180 times, and curve_vertex_count is the record
count of the current transition target. -/
def hilbert_state_at (w h n : Nat) : HilbertCurveApp :=
  { size := (w, h)
    size_changed := false
    config_size := (w, h)
    mvp_viewport := (w, h)
    curve_vertex_count := 4 ^ hilbert_next_dim (hilbert_dim_iter (n / 180))
    animate_index := n % 180
    draw_count := 180
    curve_dimention := (hilbert_dim_iter (n / 180)).1
    is_animation_up := (hilbert_dim_iter (n / 180)).2 }

/-- Result of the tutorial2-surface render (main.rs lines 152-193): a
zero-dimension window skips everything, otherwise a pending resize is
applied, then the surface texture is acquired (an error propagates to the
caller through the ? operator) and the clear pass is submitted. -/
def WgpuApp.render (s : WgpuApp) (acquire : Option SurfaceError) :
    WgpuApp × Except SurfaceError Unit :=
  if s.size.1 = 0 ∨ s.size.2 = 0 then (s, Except.ok ())
  else
    let s1 := s.resize_surface_if_needed.1
    match acquire with
    | some e => (s1, Except.error e)
    | none => (s1, Except.ok ())

/-- The RedrawRequested arm of WgpuAppHandler::window_event
(tutorial2-surface main.rs lines 308-321): calls render, only logs on any
error outcome (Lost or otherwise), and unconditionally requests the next
redraw.  The returned flag is the request_redraw call. -/
def window_event_redraw (s : WgpuApp) (acquire : Option SurfaceError) : WgpuApp × Bool :=
  let r := s.render acquire
  ((r.1), true)

/-- The states the wraparound dimension automaton can inhabit: the initial
state followed by the period-10 oscillation orbit. -/
def hilbert_dim_states : List (Nat × Bool) :=
  [(1, true), (2, true), (3, true), (4, true), (5, true), (6, true),
   (5, false), (4, false), (3, false), (2, false), (1, false)]

theorem HilbertCurve.new_length (d : Nat) : (HilbertCurve.new d).vertices.length = 4 ^ d := by
  simp [HilbertCurve.new]

theorem HilbertCurve.four_times_length (c : HilbertCurve) :
    c.four_times_vertices.vertices.length = 4 * c.vertices.length := by
  show (c.vertices.flatMap fun v => [v, v, v, v]).length = 4 * c.vertices.length
  induction c.vertices with
  | nil => rfl
  | cons a t ih => simp only [List.flatMap_cons, List.length_append, List.length_cons,
      List.length_nil, ih, List.length_flatMap] at *; omega

theorem hilbert_render_clean_state (w h cvc idx d : Nat) (up : Bool) (hcvc : cvc ≠ 0) :
    (HilbertCurveApp.render
      { size := (w, h), size_changed := false, config_size := (w, h), mvp_viewport := (w, h),
        curve_vertex_count := cvc, animate_index := idx, draw_count := 180,
        curve_dimention := d, is_animation_up := up } none).1
    = if (idx + 1) % 180 = 0 then
        { size := (w, h), size_changed := false, config_size := (w, h), mvp_viewport := (w, h),
          curve_vertex_count := 4 ^ hilbert_next_dim (hilbert_step_dimension d up),
          animate_index := (idx + 1) % 180, draw_count := 180,
          curve_dimention := (hilbert_step_dimension d up).1,
          is_animation_up := (hilbert_step_dimension d up).2 }
      else
        { size := (w, h), size_changed := false, config_size := (w, h), mvp_viewport := (w, h),
          curve_vertex_count := cvc, animate_index := (idx + 1) % 180, draw_count := 180,
          curve_dimention := d, is_animation_up := up } := by
  simp only [HilbertCurveApp.render, HilbertCurveApp.resize_surface_if_needed,
    HilbertCurveApp.first_populate, HilbertCurveApp.wrap_populate, hilbert_next_dim,
    HilbertCurve.new_length, Bool.false_eq_true, if_false, if_neg hcvc]
  split <;> simp [HilbertCurve.new_length]

theorem hilbert_render_clean_writes (w h cvc idx d : Nat) (up : Bool) (hcvc : cvc ≠ 0) :
    (HilbertCurveApp.render
      { size := (w, h), size_changed := false, config_size := (w, h), mvp_viewport := (w, h),
        curve_vertex_count := cvc, animate_index := idx, draw_count := 180,
        curve_dimention := d, is_animation_up := up } none).2.1
    = if (idx + 1) % 180 = 0 then
        [{ buffer := 0, offset := 0,
           records := (if (hilbert_step_dimension d up).2 then
               (HilbertCurve.new (hilbert_step_dimension d up).1).four_times_vertices
             else HilbertCurve.new (hilbert_step_dimension d up).1).vertices },
         { buffer := 1, offset := 0,
           records := (HilbertCurve.new (hilbert_next_dim (hilbert_step_dimension d up))).vertices }]
      else [] := by
  simp only [HilbertCurveApp.render, HilbertCurveApp.resize_surface_if_needed,
    HilbertCurveApp.first_populate, HilbertCurveApp.wrap_populate, hilbert_next_dim,
    Bool.false_eq_true, if_false, if_neg hcvc]
  split <;> simp

theorem hilbert_trace_eq (w h : Nat) :
    ∀ n, hilbert_trace w h (n + 1) = hilbert_state_at w h (n + 1) := by
  intro n
  induction n with
  | zero => rfl
  | succ n ih =>
    show ((hilbert_trace w h (n + 1)).render none).1 = _
    rw [ih]
    have hr : (n + 1) % 180 < 180 := Nat.mod_lt _ (by norm_num)
    have hcvc : (4 : Nat) ^ hilbert_next_dim (hilbert_dim_iter ((n + 1) / 180)) ≠ 0 :=
      pow_ne_zero _ (by norm_num)
    have hcond : ((n + 1) % 180 + 1) % 180 = (n + 2) % 180 := by omega
    rw [show hilbert_state_at w h (n + 1) =
        { size := (w, h), size_changed := false, config_size := (w, h), mvp_viewport := (w, h),
          curve_vertex_count := 4 ^ hilbert_next_dim (hilbert_dim_iter ((n + 1) / 180)),
          animate_index := (n + 1) % 180, draw_count := 180,
          curve_dimention := (hilbert_dim_iter ((n + 1) / 180)).1,
          is_animation_up := (hilbert_dim_iter ((n + 1) / 180)).2 } from rfl,
      hilbert_render_clean_state w h _ _ _ _ hcvc, hcond]
    by_cases hwrap : (n + 2) % 180 = 0
    · rw [if_pos hwrap]
      have hq : (n + 2) / 180 = (n + 1) / 180 + 1 := by omega
      have hiter : hilbert_dim_iter ((n + 1) / 180 + 1)
          = hilbert_step_dimension (hilbert_dim_iter ((n + 1) / 180)).1
              (hilbert_dim_iter ((n + 1) / 180)).2 := rfl
      simp [hilbert_state_at, hq, hiter, hwrap]
    · rw [if_neg hwrap]
      have hq : (n + 2) / 180 = (n + 1) / 180 := by omega
      simp [hilbert_state_at, hq]

theorem hilbert_dim_states_closed :
    ∀ x ∈ hilbert_dim_states,
      hilbert_step_dimension x.1 x.2 ∈ hilbert_dim_states := by decide

theorem hilbert_dim_iter_mem (n : Nat) : hilbert_dim_iter n ∈ hilbert_dim_states := by
  induction n with
  | zero => decide
  | succ n ih => exact hilbert_dim_states_closed _ ih

theorem hilbert_dim_states_bounds :
    ∀ x ∈ hilbert_dim_states, 1 ≤ x.1 ∧ x.1 ≤ 6 := by decide

theorem hilbert_dim_states_flip :
    ∀ x ∈ hilbert_dim_states,
      (¬ (hilbert_step_dimension x.1 x.2).2 = x.2
        ↔ (x.2 = true ∧ x.1 = 6) ∨ (x.2 = false ∧ x.1 = 1))
    ∧ (x.2 = true ∧ x.1 = 6 → (hilbert_step_dimension x.1 x.2).1 = x.1 - 1)
    ∧ (x.2 = false ∧ x.1 = 1 → (hilbert_step_dimension x.1 x.2).1 = x.1 + 1) := by decide

theorem hilbert_trace_phase (w h k : Nat) :
    (hilbert_trace w h (180 * k)).curve_dimention = (hilbert_dim_iter k).1
  ∧ (hilbert_trace w h (180 * k)).is_animation_up = (hilbert_dim_iter k).2 := by
  cases k with
  | zero => exact ⟨rfl, rfl⟩
  | succ k =>
    have h1 : 180 * (k + 1) = (180 * (k + 1) - 1) + 1 := by omega
    rw [h1, hilbert_trace_eq, ← h1]
    have hq : 180 * (k + 1) / 180 = k + 1 := by omega
    constructor <;> simp [hilbert_state_at, hq]

theorem hilbert_trace_dim_bounds (w h n : Nat) :
    1 ≤ (hilbert_trace w h n).curve_dimention ∧ (hilbert_trace w h n).curve_dimention ≤ 6 := by
  cases n with
  | zero => exact ⟨le_refl 1, by show (1 : Nat) ≤ 6; norm_num⟩
  | succ n =>
    rw [hilbert_trace_eq]
    exact hilbert_dim_states_bounds _ (hilbert_dim_iter_mem ((n + 1) / 180))

/-- C4: for the curve-morph animation driver starting at dimension 1
ascending with maximum 6, the phase values read at successive
frame-index wraparounds (every 180 renders) oscillate as
1,2,3,4,5,6,5,4,3,2,1,..., the phase never leaves the interval [1, 6] at
any point of the trace, and the direction flag flips exactly at the
wraparounds where the phase is at a boundary (6 while ascending, 1 while
descending), where the phase decrements (respectively increments) instead
of continuing. -/
theorem c4_phase_oscillation (w h : Nat) :
    (∀ n, 1 ≤ (hilbert_trace w h n).curve_dimention
        ∧ (hilbert_trace w h n).curve_dimention ≤ 6)
  ∧ ((List.range 11).map fun k => (hilbert_trace w h (180 * k)).curve_dimention)
      = [1, 2, 3, 4, 5, 6, 5, 4, 3, 2, 1]
  ∧ (∀ k,
      (¬ (hilbert_trace w h (180 * (k + 1))).is_animation_up
          = (hilbert_trace w h (180 * k)).is_animation_up
        ↔ ((hilbert_trace w h (180 * k)).is_animation_up = true
            ∧ (hilbert_trace w h (180 * k)).curve_dimention = 6)
          ∨ ((hilbert_trace w h (180 * k)).is_animation_up = false
            ∧ (hilbert_trace w h (180 * k)).curve_dimention = 1))
      ∧ ((hilbert_trace w h (180 * k)).is_animation_up = true
          ∧ (hilbert_trace w h (180 * k)).curve_dimention = 6
          → (hilbert_trace w h (180 * (k + 1))).curve_dimention
              = (hilbert_trace w h (180 * k)).curve_dimention - 1)
      ∧ ((hilbert_trace w h (180 * k)).is_animation_up = false
          ∧ (hilbert_trace w h (180 * k)).curve_dimention = 1
          → (hilbert_trace w h (180 * (k + 1))).curve_dimention
              = (hilbert_trace w h (180 * k)).curve_dimention + 1)) := by
  refine ⟨fun n => hilbert_trace_dim_bounds w h n, ?_, fun k => ?_⟩
  · have hmap := List.map_congr_left (l := List.range 11)
      (f := fun k => (hilbert_trace w h (180 * k)).curve_dimention)
      (g := fun k => (hilbert_dim_iter k).1)
      (fun a _ => (hilbert_trace_phase w h a).1)
    rw [hmap]; decide
  · obtain ⟨hd, hu⟩ := hilbert_trace_phase w h k
    obtain ⟨hd1, hu1⟩ := hilbert_trace_phase w h (k + 1)
    rw [hd, hu, hd1, hu1]
    have hstep : hilbert_dim_iter (k + 1)
        = hilbert_step_dimension (hilbert_dim_iter k).1 (hilbert_dim_iter k).2 := rfl
    rw [hstep]
    exact hilbert_dim_states_flip _ (hilbert_dim_iter_mem k)

/-- Witness for c4_phase_oscillation: at the 5th wraparound the driver is
at dimension 6 still ascending and the next wraparound decrements to 5; at
the 10th it is at dimension 1 descending and the next increments to 2. -/
theorem c4_phase_oscillation_witness :
    (hilbert_trace 800 600 (180 * 6)).curve_dimention
      = (hilbert_trace 800 600 (180 * 5)).curve_dimention - 1
  ∧ (hilbert_trace 800 600 (180 * 11)).curve_dimention
      = (hilbert_trace 800 600 (180 * 10)).curve_dimention + 1 := by
  have h5 := hilbert_trace_phase 800 600 5
  have h10 := hilbert_trace_phase 800 600 10
  constructor
  · exact ((c4_phase_oscillation 800 600).2.2 5).2.1
      ⟨by rw [h5.2]; decide, by rw [h5.1]; decide⟩
  · exact ((c4_phase_oscillation 800 600).2.2 10).2.2
      ⟨by rw [h10.2]; decide, by rw [h10.1]; decide⟩

/-- C1 (failing-input evaluation): at the 5th frame-index wraparound the
driver is at dimension 5 still ascending (animate_index 179 after 899
renders), and render number 899 steps the dimension to 6, quadruples the
dimension-6 start curve and targets the dimension-7 curve: both
vertex-buffer writes are 196608 bytes, four times the allocated ping-pong
buffer capacity of 48 * len(HilbertCurve::new(5)) = 49152 bytes, so the
capacity bound claimed by the spec is violated on a reachable state. -/
theorem c1_capacity_overflow :
    (hilbert_trace 800 600 899).curve_dimention = 5
  ∧ (hilbert_trace 800 600 899).is_animation_up = true
  ∧ (hilbert_trace 800 600 899).animate_index = 179
  ∧ hilbert_vertex_buffer_size = 49152
  ∧ (hilbert_render_writes 800 600 899).map VertexBufferWrite.byte_size = [196608, 196608]
  ∧ 49152 < 196608 := by
  have hstate : hilbert_trace 800 600 899
      = { size := (800, 600), size_changed := false, config_size := (800, 600),
          mvp_viewport := (800, 600), curve_vertex_count := 4 ^ 6, animate_index := 179,
          draw_count := 180, curve_dimention := 5, is_animation_up := true } := by
    rw [show (899 : Nat) = 898 + 1 from rfl, hilbert_trace_eq]
    decide
  refine ⟨by rw [hstate], by rw [hstate], by rw [hstate], ?_, ?_, by norm_num⟩
  · simp [hilbert_vertex_buffer_size, HilbertCurve.new_length]
  · rw [hilbert_render_writes, hstate,
      hilbert_render_clean_writes 800 600 (4 ^ 6) 179 5 true (by norm_num),
      if_pos (by norm_num)]
    simp [hilbert_step_dimension, hilbert_next_dim, VertexBufferWrite.byte_size,
      vertex_byte_size, HilbertCurve.four_times_length, HilbertCurve.new_length]

set_option maxHeartbeats 1600000 in
theorem hilbert_cvc_last_target (w h : Nat) :
    ∀ n, (hilbert_trace w h (n + 1)).curve_vertex_count = last_target_records w h n := by
  intro n
  induction n with
  | zero => rfl
  | succ n ih =>
    show ((hilbert_trace w h (n + 1)).render none).1.curve_vertex_count = _
    rw [last_target_records, ← ih]
    show _ = (target_populate ((hilbert_trace w h (n + 1)).render none).2.1).getD
      (hilbert_trace w h (n + 1)).curve_vertex_count
    rw [hilbert_trace_eq w h n]
    have hcvc : (4 : Nat) ^ hilbert_next_dim (hilbert_dim_iter ((n + 1) / 180)) ≠ 0 :=
      pow_ne_zero _ (by norm_num)
    rw [show hilbert_state_at w h (n + 1) =
        { size := (w, h), size_changed := false, config_size := (w, h), mvp_viewport := (w, h),
          curve_vertex_count := 4 ^ hilbert_next_dim (hilbert_dim_iter ((n + 1) / 180)),
          animate_index := (n + 1) % 180, draw_count := 180,
          curve_dimention := (hilbert_dim_iter ((n + 1) / 180)).1,
          is_animation_up := (hilbert_dim_iter ((n + 1) / 180)).2 } from rfl,
      hilbert_render_clean_state w h _ _ _ _ hcvc,
      hilbert_render_clean_writes w h _ _ _ _ hcvc]
    by_cases hwrap : ((n + 1) % 180 + 1) % 180 = 0
    · rw [if_pos hwrap, if_pos hwrap]
      simp [target_populate, HilbertCurve.new_length]
    · rw [if_neg hwrap, if_neg hwrap]
      simp [target_populate]

/-- C8: the instance count of the draw emitted by render number n of the
Hilbert trace equals the record count of the most recently populated
target buffer (same or earlier frame) minus one, the cached
curve_vertex_count field always agrees with that most recent target
population, and the particle draw always uses particle_count instances. -/
theorem c8_draw_instance_counts (w h : Nat) :
    (∀ n, (hilbert_frame_draw w h n).instance_count = last_target_records w h n - 1
       ∧ (hilbert_trace w h (n + 1)).curve_vertex_count = last_target_records w h n)
  ∧ (∀ p : ParticleInk, p.enter_frame.2.1.instance_count = p.particle_count) := by
  refine ⟨fun n => ⟨?_, hilbert_cvc_last_target w h n⟩, fun p => ?_⟩
  · have hdraw : (hilbert_frame_draw w h n).instance_count
        = (hilbert_trace w h (n + 1)).curve_vertex_count - 1 := rfl
    rw [hdraw, hilbert_cvc_last_target]
  · show (ParticleInk.enter_frame p).2.1.instance_count = p.particle_count
    rw [ParticleInk.enter_frame]
    split <;> rfl

/-- C9: record i of each Frame Uniform Table is written at byte offset
256 * i at initialization, and each draw binds the dynamic-offset uniform
slice at 256 times the animation index current at draw time. -/
theorem c9_dynamic_offsets :
    (∀ dc i, i < dc → (hilbert_uniform_writes dc)[i]? = some (256 * i, hilbert_uniform_at dc i))
  ∧ (∀ fc i, i < fc →
      (particle_uniform_writes fc)[i]? = some (256 * i, particle_uniform_at fc i))
  ∧ (∀ w h n, (hilbert_frame_draw w h n).dynamic_offset
      = 256 * (hilbert_trace w h (n + 1)).animate_index)
  ∧ (∀ p : ParticleInk, p.enter_frame.2.1.dynamic_offset = 256 * p.animate_index) := by
  refine ⟨fun dc i hi => ?_, fun fc i hi => ?_, fun w h n => rfl, fun p => ?_⟩
  · simp [hilbert_uniform_writes, hi]
  · simp [particle_uniform_writes, hi]
  · show (ParticleInk.enter_frame p).2.1.dynamic_offset = 256 * p.animate_index
    rw [ParticleInk.enter_frame]
    split <;> rfl

/-- Witness for c9_dynamic_offsets at the table sizes the examples use. -/
theorem c9_dynamic_offsets_witness :
    (hilbert_uniform_writes 180)[7]? = some (256 * 7, hilbert_uniform_at 180 7)
  ∧ (particle_uniform_writes 180)[9]? = some (256 * 9, particle_uniform_at 180 9) :=
  ⟨c9_dynamic_offsets.1 180 7 (by norm_num),
   c9_dynamic_offsets.2.1 180 9 (by norm_num)⟩

/-- C2 (counterexample): when surface acquisition fails inside render, the
error is returned to the caller (the result of render is that error, not a
locally handled success), and the observable animation state after the
failed call differs from the state before it: from the state after one
render (animate_index 1), a failed render leaves animate_index 2. -/
theorem c2_failed_render_counterexample :
    ((hilbert_trace 800 600 1).render (some SurfaceError.outdated)).2.2
      = Except.error SurfaceError.outdated
  ∧ (hilbert_trace 800 600 1).animate_index = 1
  ∧ ((hilbert_trace 800 600 1).render (some SurfaceError.outdated)).1.animate_index = 2 :=
  ⟨rfl, rfl, rfl⟩

/-- C2 (amended): a failed acquisition makes render return the error to its
caller after performing exactly the state updates and buffer writes of a
successful render (the advance happens before acquisition, so no partial or
corrupted state arises, but the pre-call state is not preserved), and the
tutorial2-surface event-loop handler requests a redraw after every render
outcome, so the next frame retries. -/
theorem c2_error_propagation_amended :
    (∀ (s : HilbertCurveApp) (e : SurfaceError),
        (s.render (some e)).2.2 = Except.error e
      ∧ (s.render (some e)).1 = (s.render none).1
      ∧ (s.render (some e)).2.1 = (s.render none).2.1)
  ∧ (∀ (t : WgpuApp) (a : Option SurfaceError), (window_event_redraw t a).2 = true) :=
  ⟨fun _ _ => ⟨rfl, rfl, rfl⟩, fun _ _ => rfl⟩

/-- C3 (counterexample): for the particle table at the frame count the code
uses (180), the last record holds frame_alpha 179/45 (close to 4), not the
claimed end value 1; and for a single-record Hilbert table the sole record
(which is both first and last) does not hold ratio 1 either (the code
computes 0/0 there, NaN in f32 and 0 in this exact-rational embedding). -/
theorem c3_end_value_counterexample :
    (init_frame_uniforms 180).length = 180
  ∧ ((init_frame_uniforms 180)[179]?.map fun u => u.frame_alpha) = some (179 / 45)
  ∧ ((179 : Rat) / 45) ≠ 1
  ∧ ¬ ((hilbert_frame_uniforms 1)[0]?.map fun u => u.near_target_ratio) = some 1 := by
  refine ⟨by simp [init_frame_uniforms], ?_, by norm_num, ?_⟩
  · simp [init_frame_uniforms, particle_uniform_at]
    norm_num
  · simp [hilbert_frame_uniforms, hilbert_uniform_at]

/-- C3 (amended): both Frame Uniform Tables have exactly frame_count
records.  The Hilbert table starts at ratio 0 and ends at ratio 1 whenever
frame_count is at least 2.  The particle table starts at alpha 0 but ends
at alpha 4 * (frame_count - 1) / frame_count (about 4, not 1), for any
positive frame_count. -/
theorem c3_frame_table_amended (fc : Nat) :
    (init_frame_uniforms fc).length = fc
  ∧ (hilbert_frame_uniforms fc).length = fc
  ∧ (1 ≤ fc →
        ((init_frame_uniforms fc)[0]?.map fun u => u.frame_alpha) = some 0
      ∧ ((init_frame_uniforms fc)[fc - 1]?.map fun u => u.frame_alpha)
          = some (4 * ((fc : Rat) - 1) / fc))
  ∧ (2 ≤ fc →
        ((hilbert_frame_uniforms fc)[0]?.map fun u => u.near_target_ratio) = some 0
      ∧ ((hilbert_frame_uniforms fc)[fc - 1]?.map fun u => u.near_target_ratio) = some 1) := by
  refine ⟨by simp [init_frame_uniforms], by simp [hilbert_frame_uniforms],
    fun h1 => ⟨?_, ?_⟩, fun h2 => ⟨?_, ?_⟩⟩
  · simp [init_frame_uniforms, particle_uniform_at, h1, Nat.lt_of_lt_of_le Nat.zero_lt_one h1]
  · have hlt : fc - 1 < fc := by omega
    have hfc : (fc : Rat) ≠ 0 := Nat.cast_ne_zero.mpr (by omega)
    simp [init_frame_uniforms, particle_uniform_at, hlt]
    rw [Nat.cast_sub h1]
    push_cast
    field_simp
    try ring
  · simp [hilbert_frame_uniforms, hilbert_uniform_at, Nat.lt_of_lt_of_le Nat.zero_lt_two h2]
  · have hlt : fc - 1 < fc := by omega
    have hne : (fc : Rat) - 1 ≠ 0 := by
      have : (2 : Rat) ≤ (fc : Rat) := by exact_mod_cast h2
      intro hzero
      nlinarith
    simp [hilbert_frame_uniforms, hilbert_uniform_at, hlt]
    rw [Nat.cast_sub (by omega)]
    push_cast
    field_simp

/-- Witness for c3_frame_table_amended at frame count 180. -/
theorem c3_frame_table_amended_witness :
    ((init_frame_uniforms 180)[179]?.map fun u => u.frame_alpha)
      = some (4 * ((180 : Rat) - 1) / 180)
  ∧ ((hilbert_frame_uniforms 180)[179]?.map fun u => u.near_target_ratio) = some 1 :=
  ⟨((c3_frame_table_amended 180).2.2.1 (by norm_num)).2,
   ((c3_frame_table_amended 180).2.2.2 (by norm_num)).2⟩

theorem particle_run_tail (pc : Nat) :
    ∀ m i, 1 ≤ i → i + m = 179 →
      particle_run (m + 1) { particle_count := pc, animate_index := i, frame_count := 180 }
        = ({ particle_count := pc, animate_index := 0, frame_count := 180 },
           List.replicate m ([ComputeDispatch.move], false)
             ++ [([ComputeDispatch.move], true)]) := by
  intro m
  induction m with
  | zero =>
    intro i h1 hi
    have h179 : i = 179 := by omega
    subst h179
    rfl
  | succ m ih =>
    intro i h1 hi
    have hne : ¬ i = 0 := by omega
    have hne2 : ¬ i + 1 = 180 := by omega
    show particle_run (m + 1 + 1) _ = _
    rw [particle_run]
    simp only [particle_frame, ParticleInk.cal_particles_move, ParticleInk.enter_frame,
      if_neg hne, if_neg hne2, List.nil_append]
    rw [ih (i + 1) (by omega) (by omega)]
    simp [List.replicate_succ]

theorem particle_run_180 (pc : Nat) :
    particle_run 180 { particle_count := pc, animate_index := 0, frame_count := 180 }
      = ({ particle_count := pc, animate_index := 0, frame_count := 180 },
         ([ComputeDispatch.reset, ComputeDispatch.move], false)
           :: (List.replicate 178 ([ComputeDispatch.move], false)
             ++ [([ComputeDispatch.move], true)])) := by
  show particle_run (179 + 1) _ = _
  rw [particle_run]
  have hne2 : ¬ (0 : Nat) + 1 = 180 := by norm_num
  simp only [particle_frame, ParticleInk.cal_particles_move, ParticleInk.enter_frame,
    if_pos rfl, if_neg hne2]
  rw [show (179 : Nat) = 178 + 1 from rfl, particle_run_tail pc 178 1 (by norm_num) (by norm_num)]
  rfl

/-- C5: with frame_count 180 and any particle count, 180 frames (each one
cal_particles_move then enter_frame) return animate_index to 0, report
completion exactly once, on the 180th call, and record the reset dispatch
exactly once, in the frame whose animate_index is 0, before the move
dispatch of the same compute pass. -/
theorem c5_particle_cycle (pc : Nat) :
    (particle_run 180
        { particle_count := pc, animate_index := 0, frame_count := 180 }).1.animate_index = 0
  ∧ ((particle_run 180
        { particle_count := pc, animate_index := 0, frame_count := 180 }).2.map fun l => l.2)
      = List.replicate 179 false ++ [true]
  ∧ ((particle_run 180
        { particle_count := pc, animate_index := 0, frame_count := 180 }).2.map fun l => l.1)
      = [ComputeDispatch.reset, ComputeDispatch.move]
          :: List.replicate 179 [ComputeDispatch.move] := by
  rw [particle_run_180]
  refine ⟨rfl, ?_, ?_⟩
  · simp only [List.map_cons, List.map_append, List.map_replicate, List.map_nil]
    conv_rhs => rw [show (179 : Nat) = 178 + 1 from rfl, List.replicate_succ]
    simp only [List.cons_append]
  · simp only [List.map_cons, List.map_append, List.map_replicate, List.map_nil]
    conv_rhs => rw [show (179 : Nat) = 178 + 1 from rfl, List.replicate_succ']

/-- C6 (counterexample): with frame count 0 the table constructor does not
fail: the Rust body has no failure path (the loop never runs and the f32
division 1.0 / 0.0 is defined and unused), so it returns an empty table. -/
theorem c6_zero_frame_count_counterexample :
    init_frame_uniforms 0 = [] ∧ (init_frame_uniforms 0).length = 0 :=
  ⟨rfl, rfl⟩

/-- C6 (amended): building the particle Frame Uniform Table is total, with
no failure mode for any frame count: it always yields exactly frame_count
records, the empty table when frame_count is 0. -/
theorem c6_total_construction_amended (fc : Nat) :
    (init_frame_uniforms fc).length = fc
  ∧ (fc = 0 → init_frame_uniforms fc = []) := by
  refine ⟨by simp [init_frame_uniforms], fun h0 => by subst h0; rfl⟩

/-- Witness for c6_total_construction_amended at frame count 0. -/
theorem c6_total_construction_amended_witness :
    (init_frame_uniforms 0).length = 0 ∧ init_frame_uniforms 0 = [] :=
  ⟨(c6_total_construction_amended 0).1, (c6_total_construction_amended 0).2 rfl⟩

/-- C7: in both apps, applying the deferred resize performs the
reconfiguration (and, for the Hilbert app, the projection-uniform upload)
exactly once when the dirty flag is set and not at all otherwise, always
leaves the dirty flag cleared, and a second application with no
intervening resize notification is a no-op: same state, no side effects.
The state is arbitrary, so this holds however many notifications arrived
before the first call. -/
theorem c7_apply_if_dirty_idempotent :
    (∀ s : HilbertCurveApp,
        s.resize_surface_if_needed.1.size_changed = false
      ∧ s.resize_surface_if_needed.2
          = (if s.size_changed then
               [ResizeEffect.reconfigure_surface s.size.1 s.size.2,
                ResizeEffect.upload_projection_uniform s.size.1 s.size.2]
             else [])
      ∧ s.resize_surface_if_needed.1.resize_surface_if_needed
          = (s.resize_surface_if_needed.1, []))
  ∧ (∀ t : WgpuApp,
        t.resize_surface_if_needed.1.size_changed = false
      ∧ t.resize_surface_if_needed.2
          = (if t.size_changed then
               [ResizeEffect.reconfigure_surface t.size.1 t.size.2]
             else [])
      ∧ t.resize_surface_if_needed.1.resize_surface_if_needed
          = (t.resize_surface_if_needed.1, [])) := by
  constructor
  · intro s
    by_cases hs : s.size_changed
    · simp [HilbertCurveApp.resize_surface_if_needed, hs]
    · simp [HilbertCurveApp.resize_surface_if_needed, hs]
  · intro t
    by_cases ht : t.size_changed
    · simp [WgpuApp.resize_surface_if_needed, ht]
    · simp [WgpuApp.resize_surface_if_needed, ht]

/-- C10 (counterexample): in the tutorial2-surface variant the guard of
set_window_resized compares against the last recorded size, not the
surface configuration, so with a resize pending (recorded size 1024x768,
configured size 800x600, dirty flag set) a call carrying exactly the
configured dimensions changes the state: the stored size becomes 800x600. -/
theorem c10_config_size_counterexample :
    ({ size := (1024, 768), size_changed := true,
       config_size := (800, 600) } : WgpuApp).config_size = (800, 600)
  ∧ (({ size := (1024, 768), size_changed := true,
        config_size := (800, 600) } : WgpuApp).set_window_resized (800, 600)).size = (800, 600)
  ∧ ¬ ({ size := (1024, 768), size_changed := true,
         config_size := (800, 600) } : WgpuApp).set_window_resized (800, 600)
      = { size := (1024, 768), size_changed := true, config_size := (800, 600) } := by
  refine ⟨rfl, rfl, ?_⟩
  decide

/-- C10 (amended): the Hilbert app guard compares against the surface
configuration, so a notification carrying exactly the configured
dimensions is a complete no-op, as claimed; the tutorial2-surface guard
compares against the last recorded size, so there the call is a no-op
exactly when the dimensions equal that recorded size (which coincides with
the configured size whenever no resize is pending). -/
theorem c10_resize_noop_amended :
    (∀ (s : HilbertCurveApp) (nsz : Nat × Nat),
        s.config_size = nsz → s.set_window_resized nsz = s)
  ∧ (∀ (t : WgpuApp) (nsz : Nat × Nat), t.size = nsz → t.set_window_resized nsz = t) := by
  constructor
  · intro s nsz hc
    simp [HilbertCurveApp.set_window_resized, hc]
  · intro t nsz ht
    simp [WgpuApp.set_window_resized, ht]

/-- Witness for c10_resize_noop_amended on concrete states. -/
theorem c10_resize_noop_amended_witness :
    (hilbert_init 800 600).set_window_resized (800, 600) = hilbert_init 800 600
  ∧ ({ size := (7, 9), size_changed := false, config_size := (7, 9) } : WgpuApp).set_window_resized
      (7, 9) = { size := (7, 9), size_changed := false, config_size := (7, 9) } :=
  ⟨c10_resize_noop_amended.1 _ _ rfl, c10_resize_noop_amended.2 _ _ rfl⟩
